import Mathlib

/-!
Shallow embedding of `faust/serializers/registry.py` (class `Registry`):
the serialization dispatcher that routes key/value encode/decode requests
between the plain codec layer, cached external (async) serializer clients,
and the typed-record (model) path.

External collaborators of the registry (the codec layer, the model base
class, the plugin alias table, `want_bytes`) are not part of the source
file; they are modelled from the specification as an explicit environment
(`Env`) of boundary functions, and instantiated concretely (`demoEnv`) for
executable witnesses.  Python exceptions are modelled as an error type
`Exc` threaded through `Except`; the mutable `_override` cache and the
instrumentation counter for plugin-resolver invocations live in the
`Registry` state, which every operation threads explicitly.
-/

/-- Exception classes that the registry code distinguishes:  the decode
errors it raises, the `KeyError` control-flow signal of `_get_serializer`,
and arbitrary other exception types from collaborators. -/
inductive ExcKind where
  | keyDecodeError : ExcKind
  | valueDecodeError : ExcKind
  | keyError : ExcKind
  | other : String → ExcKind
deriving DecidableEq, Repr

/-- A Python exception value: its class together with its message
(`str(exc)`).  Re-raising `from None` suppresses the original exception,
so a wrapped decode error is just a fresh `Exc` holding the message. -/
structure Exc where
  kind : ExcKind
  msg : String
deriving DecidableEq, Repr

/-- `CodecArg`: a codec identifier is `None`, a string name/alias, or an
already-instantiated codec object (modelled by an opaque tag). -/
inductive CodecArg where
  | none : CodecArg
  | name : String → CodecArg
  | codec : Nat → CodecArg
deriving DecidableEq, Repr

/-- Python truthiness of a `CodecArg` (`if serializer:`): `None` and the
empty string are falsy, codec instances are truthy. -/
def CodecArg.isTruthy : CodecArg → Bool
  | .none => false
  | .name s => !s.isEmpty
  | .codec _ => true

/-- Python `a or b` on codec arguments, as used in
`typ._options.serializer or default_serializer`. -/
def CodecArg.orElse (a b : CodecArg) : CodecArg :=
  if a.isTruthy then a else b

/-- Python runtime values flowing through the registry: `None`, byte
strings, text strings, integers, dictionaries (as a key/value chain), and
typed-record (model) instances.  A model instance carries its concrete
type name, its declared `_options.serializer`, and its payload data. -/
inductive Val where
  | vnone : Val
  | vbytes : String → Val
  | vstr : String → Val
  | vint : Int → Val
  | vdictNil : Val
  | vdictCons : String → Val → Val → Val
  | vmodel : String → CodecArg → Val → Val
deriving DecidableEq, Repr

/-- `isinstance(x, ModelT)`. -/
def isModelVal : Val → Bool
  | .vmodel _ _ _ => true
  | _ => false

/-- An instantiated external (async) serializer client, as produced by
`symbol_by_name(override_classes.get_alias(name))(self)`.  The `id` field
records which plugin-resolver invocation constructed it, so that object
identity and construction counts are observable in the model. -/
structure AsyncSerializer where
  name : String
  id : Nat
deriving DecidableEq, Repr

/-- Association lookup in the `_override` cache (a Python dict keyed by
codec name; newest insertion shadows, which never arises because inserts
only happen on misses). -/
def lookupOverride : List (String × AsyncSerializer) → String → Option AsyncSerializer
  | [], _ => Option.none
  | (k, c) :: rest, s => if k = s then Option.some c else lookupOverride rest s

/-- Modelled from the spec: the boundary contracts the registry consumes
(§6 of the spec): the pure codec layer (`dumps`/`loads`), the alias table
of the plugin resolver (`override_classes`), the typed-record capability
(`_maybe_namespace`, construction, per-type preferred serializer, model
self-dump), and the asynchronous external-serializer client interface. -/
structure Env where
  aliases : List String
  codecLoads : CodecArg → String → Except Exc Val
  codecDumps : CodecArg → Val → Except Exc String
  maybeNamespace : Val → Option String
  construct : String → Val → Except Exc Val
  typeSerializer : String → CodecArg
  modelDumps : Val → CodecArg → Except Exc String
  clientLoads : AsyncSerializer → String → Except Exc Val
  clientDumpsKey : AsyncSerializer → String → Val → Except Exc String
  clientDumpsValue : AsyncSerializer → String → Val → Except Exc String

/-- The `typ` argument of the decode entry points (`ModelArg`): a codec
name string, a codec instance, or a concrete model type (by name). -/
inductive ModelArg where
  | mstr : String → ModelArg
  | mcodec : Nat → ModelArg
  | mmodel : String → ModelArg
deriving DecidableEq, Repr

/-- The `Registry` object: the two default codec identifiers from
`__init__`, the `_override` client cache, and an instrumentation counter
of plugin-resolver/constructor invocations (for the caching claims). -/
structure Registry where
  key_serializer : CodecArg
  value_serializer : CodecArg
  override : List (String × AsyncSerializer)
  resolverCalls : Nat
deriving DecidableEq, Repr

/-- `Registry._get_serializer`: raise `KeyError` for a non-string name,
return the cached client on a hit, otherwise resolve the alias (raising
`KeyError` when the name is not in the alias table), construct the client,
store it in the cache and return it. -/
def Registry._get_serializer (env : Env) (r : Registry) (nm : CodecArg) :
    Registry × Except Exc AsyncSerializer :=
  match nm with
  | .name s =>
    match lookupOverride r.override s with
    | Option.some c => (r, .ok c)
    | Option.none =>
      if s ∈ env.aliases then
        ({ r with override := (s, ⟨s, r.resolverCalls⟩) :: r.override,
                  resolverCalls := r.resolverCalls + 1 },
         .ok ⟨s, r.resolverCalls⟩)
      else (r, .error ⟨.keyError, s⟩)
  | _ => (r, .error ⟨.keyError, "not a string"⟩)

/-- `Registry._loads`: try to resolve an external client; on `KeyError`
fall back to the plain codec layer's `loads`; otherwise await the client's
`loads`. -/
def Registry._loads (env : Env) (r : Registry) (serializer : CodecArg) (data : String) :
    Registry × Except Exc Val :=
  match r._get_serializer env serializer with
  | (r', .error ⟨.keyError, _⟩) => (r', env.codecLoads serializer data)
  | (r', .error e) => (r', .error e)
  | (r', .ok ser) => (r', env.clientLoads ser data)

/-- Modelled from the spec: `Model._maybe_reconstruct` (the model base
class is outside the source file): give the typed-record capability a
chance to reinterpret decoded data as a self-described concrete subtype;
if it declines, return the decoded data unchanged. -/
def maybe_reconstruct (env : Env) (data : Val) : Except Exc Val :=
  match env.maybeNamespace data with
  | Option.some ns => env.construct ns data
  | Option.none => .ok data

/-- `Registry._loads_model`: decode with the type's own serializer (or the
given default), then construct the self-described subtype if the payload
names one, else construct the requested type. -/
def Registry._loads_model (env : Env) (r : Registry) (tid : String)
    (default_serializer : CodecArg) (data : String) : Registry × Except Exc Val :=
  match r._loads env ((env.typeSerializer tid).orElse default_serializer) data with
  | (r', .ok d) =>
    match env.maybeNamespace d with
    | Option.some ns => (r', env.construct ns d)
    | Option.none => (r', env.construct tid d)
  | (r', .error e) => (r', .error e)

/-- Body of the `try:` block of `Registry.loads_key` (the part whose
exceptions get wrapped into `KeyDecodeError`). -/
def Registry.loads_key_body (env : Env) (r : Registry) (typ : ModelArg) (key : String) :
    Registry × Except Exc Val :=
  match typ with
  | .mstr _ | .mcodec _ =>
    match r._loads env r.key_serializer key with
    | (r', .ok d) => (r', maybe_reconstruct env d)
    | (r', .error e) => (r', .error e)
  | .mmodel tid => r._loads_model env tid r.key_serializer key

/-- `Registry.loads_key`: short-circuit when the key or the type hint is
`None` (returning the key unchanged); otherwise run the decode body and
re-raise any exception as `KeyDecodeError(str(exc))` `from None`. -/
def Registry.loads_key (env : Env) (r : Registry) (typ : Option ModelArg)
    (key : Option String) : Registry × Except Exc Val :=
  match key, typ with
  | Option.none, _ => (r, .ok .vnone)
  | Option.some b, Option.none => (r, .ok (.vbytes b))
  | Option.some b, Option.some t =>
    match r.loads_key_body env t b with
    | (r', .ok v) => (r', .ok v)
    | (r', .error e) => (r', .error ⟨.keyDecodeError, e.msg⟩)

/-- Body of the `try:` block of `Registry.loads_value`: decode with the
registry's default value serializer through the generic path when the
type hint is absent or is a codec name/instance, else through the model
path. -/
def Registry.loads_value_body (env : Env) (r : Registry) (typ : Option ModelArg)
    (value : String) : Registry × Except Exc Val :=
  match typ with
  | Option.none | Option.some (.mstr _) | Option.some (.mcodec _) =>
    match r._loads env r.value_serializer value with
    | (r', .ok d) => (r', maybe_reconstruct env d)
    | (r', .error e) => (r', .error e)
  | Option.some (.mmodel tid) => r._loads_model env tid r.value_serializer value

/-- `Registry.loads_value`: return `None` for `None` input bytes;
otherwise run the decode body and re-raise any exception as
`ValueDecodeError(str(exc))` `from None`. -/
def Registry.loads_value (env : Env) (r : Registry) (typ : Option ModelArg)
    (value : Option String) : Registry × Except Exc Val :=
  match value with
  | Option.none => (r, .ok .vnone)
  | Option.some b =>
    match r.loads_value_body env typ b with
    | (r', .ok v) => (r', .ok v)
    | (r', .error e) => (r', .error ⟨.valueDecodeError, e.msg⟩)

/-- Modelled from the spec: `want_bytes` from `utils/compat` (outside the
source file): coerce a text string to bytes, pass anything else through. -/
def want_bytes : Val → Val
  | .vstr s => .vbytes s
  | v => v

/-- The shared tail of `Registry.dumps_key` after the effective serializer
and the `is_model` flag are determined: resolve the external client, on
`KeyError` fall back to model self-dump or the plain codec `dumps`, on
success await the client's `dumps_key`; with no serializer selected,
return `want_bytes(key)` for a non-`None` key, else `None`. -/
def Registry.dumps_key_go (env : Env) (r : Registry) (topic : String) (key : Val)
    (is_model : Bool) (serializer : CodecArg) : Registry × Except Exc Val :=
  if serializer.isTruthy then
    match r._get_serializer env serializer with
    | (r', .error ⟨.keyError, _⟩) =>
      if is_model then (r', (env.modelDumps key serializer).map .vbytes)
      else (r', (env.codecDumps serializer key).map .vbytes)
    | (r', .error e) => (r', .error e)
    | (r', .ok ser) => (r', (env.clientDumpsKey ser topic key).map .vbytes)
  else
    match key with
    | .vnone => (r, .ok .vnone)
    | k => (r, .ok (want_bytes k))

/-- `Registry.dumps_key`: the `serializer` parameter is unconditionally
overwritten by `self.key_serializer`; a model key then overrides it with
its own `_options.serializer` when set. -/
def Registry.dumps_key (env : Env) (r : Registry) (topic : String) (key : Val)
    (serializer : CodecArg) : Registry × Except Exc Val :=
  match key with
  | .vmodel tid ser data =>
    Registry.dumps_key_go env r topic (.vmodel tid ser data) true (ser.orElse r.key_serializer)
  | k => Registry.dumps_key_go env r topic k false r.key_serializer

/-- The shared tail of `Registry.dumps_value` after the effective
serializer and the `is_model` flag are determined; with no serializer
selected the value is returned unchanged (`cast(bytes, value)`). -/
def Registry.dumps_value_go (env : Env) (r : Registry) (topic : String) (value : Val)
    (is_model : Bool) (serializer : CodecArg) : Registry × Except Exc Val :=
  if serializer.isTruthy then
    match r._get_serializer env serializer with
    | (r', .error ⟨.keyError, _⟩) =>
      if is_model then (r', (env.modelDumps value serializer).map .vbytes)
      else (r', (env.codecDumps serializer value).map .vbytes)
    | (r', .error e) => (r', .error e)
    | (r', .ok ser) => (r', (env.clientDumpsValue ser topic value).map .vbytes)
  else (r, .ok value)

/-- `Registry.dumps_value`: only a model value rebinds the serializer (to
its `_options.serializer or self.value_serializer`); for a non-model value
the caller-supplied `serializer` argument is used as-is. -/
def Registry.dumps_value (env : Env) (r : Registry) (topic : String) (value : Val)
    (serializer : CodecArg) : Registry × Except Exc Val :=
  match value with
  | .vmodel tid ser data =>
    Registry.dumps_value_go env r topic (.vmodel tid ser data) true (ser.orElse r.value_serializer)
  | v => Registry.dumps_value_go env r topic v false serializer

/-- Left brace character (written by code point to keep it out of
literals). -/
def lbrace : Char := Char.ofNat 123

/-- Right brace character. -/
def rbrace : Char := Char.ofNat 125

/-- Skip blanks in a character stream. -/
def skipWs : List Char → List Char
  | ' ' :: rest => skipWs rest
  | cs => cs

/-- Read the remainder of a JSON string literal up to the closing quote. -/
def takeStr : List Char → Option (String × List Char)
  | [] => Option.none
  | c :: rest =>
    if c = '"' then Option.some ("", rest)
    else
      match takeStr rest with
      | Option.some (s, r) => Option.some (String.mk (c :: s.data), r)
      | Option.none => Option.none

/-- Split a leading run of decimal digits off a character stream. -/
def takeDigits : List Char → List Char × List Char
  | [] => ([], [])
  | c :: rest =>
    if c.isDigit then
      let p := takeDigits rest
      (c :: p.1, p.2)
    else ([], c :: rest)

/-- Numeric value of a digit run. -/
def natOfDigits (ds : List Char) : Nat :=
  ds.foldl (fun acc c => acc * 10 + (c.toNat - 48)) 0

/-- Modelled from the spec: a recursive-descent JSON reader for the value
fragment the codec layer (outside the source file) must decode: `null`,
integers, strings, and objects.  The mode flag selects between reading one
value (`true`) and reading the field chain of an object after its opening
brace (`false`); the fuel argument bounds nesting. -/
def pJ : Bool → Nat → List Char → Option (Val × List Char)
  | _, 0, _ => Option.none
  | true, Nat.succ fuel, cs =>
    match skipWs cs with
    | [] => Option.none
    | c :: rest =>
      if c = '"' then (takeStr rest).map (fun p => (.vstr p.1, p.2))
      else if c = lbrace then
        match skipWs rest with
        | [] => Option.none
        | c2 :: rest2 =>
          if c2 = rbrace then Option.some (.vdictNil, rest2)
          else pJ false fuel (c2 :: rest2)
      else if c = '-' then
        match takeDigits rest with
        | ([], _) => Option.none
        | (ds, r) => Option.some (.vint (Int.negOfNat (natOfDigits ds)), r)
      else if c.isDigit then
        match takeDigits (c :: rest) with
        | (ds, r) => Option.some (.vint (Int.ofNat (natOfDigits ds)), r)
      else
        match c :: rest with
        | 'n' :: 'u' :: 'l' :: 'l' :: r => Option.some (.vnone, r)
        | _ => Option.none
  | false, Nat.succ fuel, cs =>
    match skipWs cs with
    | [] => Option.none
    | c :: rest =>
      if c = '"' then
        match takeStr rest with
        | Option.none => Option.none
        | Option.some (k, r1) =>
          match skipWs r1 with
          | ':' :: r2 =>
            match pJ true fuel r2 with
            | Option.none => Option.none
            | Option.some (v, r3) =>
              match skipWs r3 with
              | ',' :: r4 =>
                match pJ false fuel r4 with
                | Option.some (tailv, r5) => Option.some (.vdictCons k v tailv, r5)
                | Option.none => Option.none
              | c4 :: r4 =>
                if c4 = rbrace then Option.some (.vdictCons k v .vdictNil, r4)
                else Option.none
              | [] => Option.none
          | _ => Option.none
      else Option.none

/-- Read a full JSON document. -/
def jsonParse (s : String) : Option Val :=
  match pJ true (s.length + 1) s.data with
  | Option.some (v, rest) =>
    match skipWs rest with
    | [] => Option.some v
    | _ => Option.none
  | Option.none => Option.none

/-- Modelled from the spec: JSON rendering for the codec layer, matching
Python `json.dumps` separators.  Mode `true` renders one value; mode
`false` renders the continuation of an object's field chain (a comma-led
field list closed by the final brace). -/
def jsonF : Bool → Val → Option String
  | true, .vnone => Option.some "null"
  | true, .vint n => Option.some (toString n)
  | true, .vstr s => Option.some ("\"" ++ s ++ "\"")
  | true, .vdictNil => Option.some "\x7b\x7d"
  | true, .vdictCons k v rest =>
    match jsonF true v, jsonF false rest with
    | Option.some sv, Option.some cont =>
      Option.some ("\x7b\"" ++ k ++ "\": " ++ sv ++ cont)
    | _, _ => Option.none
  | false, .vdictNil => Option.some "\x7d"
  | false, .vdictCons k v rest =>
    match jsonF true v, jsonF false rest with
    | Option.some sv, Option.some cont =>
      Option.some (", \"" ++ k ++ "\": " ++ sv ++ cont)
    | _, _ => Option.none
  | _, _ => Option.none

/-- Render a value as JSON text (`None` when not JSON-serializable). -/
def jsonOfVal (v : Val) : Option String := jsonF true v

/-- Printable form of a codec identifier, for error messages and for the
demo model-dump below. -/
def codecDisplay : CodecArg → String
  | .none => "none"
  | .name s => s
  | .codec n => toString n

/-- Modelled from the spec: the pure codec layer's `loads`.  Identifier
`None` means "no serialization" (bytes pass through); `"json"` decodes
JSON; anything else is unknown to the plain layer. -/
def jsonCodecLoads : CodecArg → String → Except Exc Val
  | .none, s => .ok (.vbytes s)
  | .name "json", s =>
    match jsonParse s with
    | Option.some v => .ok v
    | Option.none => .error ⟨.other "ValueError", "could not parse: " ++ s⟩
  | c, _ => .error ⟨.other "LookupError", "unknown codec: " ++ codecDisplay c⟩

/-- Modelled from the spec: the pure codec layer's `dumps`. -/
def jsonCodecDumps : CodecArg → Val → Except Exc String
  | .name "json", v =>
    match jsonOfVal v with
    | Option.some s => .ok s
    | Option.none => .error ⟨.other "TypeError", "not JSON serializable"⟩
  | .none, .vbytes s => .ok s
  | c, _ => .error ⟨.other "LookupError", "unknown codec: " ++ codecDisplay c⟩

/-- Lookup of a field in a dictionary value. -/
def dictLookup : Val → String → Option Val
  | .vdictCons k v rest, s => if k = s then Option.some v else dictLookup rest s
  | _, _ => Option.none

/-- Modelled from the spec: self-describing namespace detection
(`Model._maybe_namespace`): a decoded dictionary carrying a `"__faust"`
field naming the concrete subtype. -/
def demoNamespace (v : Val) : Option String :=
  match dictLookup v "__faust" with
  | Option.some (.vstr ns) => Option.some ns
  | _ => Option.none

/-- A concrete environment instantiating every boundary collaborator:
the JSON codec, one registered external alias (`"avro"`), namespace-based
model reconstruction, and observable client/model dump results. -/
def demoEnv : Env where
  aliases := ["avro"]
  codecLoads := jsonCodecLoads
  codecDumps := jsonCodecDumps
  maybeNamespace := demoNamespace
  construct := fun ns v => .ok (.vmodel ns .none v)
  typeSerializer := fun _ => .none
  modelDumps := fun _ c => .ok ("model-dumped:" ++ codecDisplay c)
  clientLoads := fun c s => .ok (.vstr (c.name ++ ":" ++ s))
  clientDumpsKey := fun c t _ => .ok (c.name ++ "-key-" ++ t)
  clientDumpsValue := fun c t _ => .ok (c.name ++ "-value-" ++ t)

/-- A registry with the constructor defaults:
`key_serializer=None, value_serializer="json"`, empty cache. -/
def r0 : Registry := ⟨.none, .name "json", [], 0⟩

/-- A registry configured with `"json"` for both slots. -/
def rJson : Registry := ⟨.name "json", .name "json", [], 0⟩

/-- The decoded dictionary of the spec scenario. -/
def dictA1 : Val := .vdictCons "a" (.vint 1) .vdictNil

/-- The UTF-8 JSON byte content of the spec scenario. -/
def jsonA1 : String := "\x7b\"a\": 1\x7d"

/-- The cache of `b` retains every entry of the cache of `a`. -/
def cachePreserved (a b : Registry) : Prop :=
  ∀ k c, lookupOverride a.override k = Option.some c →
    lookupOverride b.override k = Option.some c

/-- Whether an `Except` result is an exception. -/
def isErr {α : Type} : Except Exc α → Bool
  | .error _ => true
  | .ok _ => false

/-- The not-found condition of the client resolver: the identifier is not
a string, or is a string absent from the alias table. -/
def lookupFailsB (env : Env) : CodecArg → Bool
  | .name s => !(decide (s ∈ env.aliases))
  | _ => true

/-- The message of the `KeyError` raised by `_get_serializer`. -/
def keyErrMsg : CodecArg → String
  | .name s => s
  | _ => "not a string"

/-- Well-formedness of a registry state: every cached codec name is a
registered alias.  This holds for a fresh registry and is preserved by
`_get_serializer`, the sole mutator of the cache. -/
def Registry.wf (env : Env) (r : Registry) : Prop :=
  ∀ k c, lookupOverride r.override k = Option.some c → k ∈ env.aliases

/-- Unfolding of `_get_serializer` at a string identifier. -/
theorem getSerializer_spec (env : Env) (r : Registry) (s : String) :
    Registry._get_serializer env r (.name s) =
      match lookupOverride r.override s with
      | Option.some c => (r, .ok c)
      | Option.none =>
        if s ∈ env.aliases then
          ({ r with override := (s, ⟨s, r.resolverCalls⟩) :: r.override,
                    resolverCalls := r.resolverCalls + 1 },
           .ok ⟨s, r.resolverCalls⟩)
        else (r, .error ⟨.keyError, s⟩) := rfl

theorem cachePreserved_refl (r : Registry) : cachePreserved r r :=
  fun _ _ h => h

/-- A fresh registry (empty cache) is well-formed for any environment. -/
theorem wf_empty (env : Env) (r : Registry) (h : r.override = []) :
    Registry.wf env r := by
  intro k c hk
  rw [h] at hk
  exact Option.noConfusion hk

/-- When `_get_serializer` raises, the lookup condition holds and the
raised exception is the `KeyError` with the modelled message. -/
theorem getSerializer_fails (env : Env) (r : Registry) (nm : CodecArg)
    (hwf : Registry.wf env r) (hf : lookupFailsB env nm = true) :
    Registry._get_serializer env r nm = (r, .error ⟨.keyError, keyErrMsg nm⟩) := by
  cases nm with
  | name s =>
    have hmem : s ∉ env.aliases := by
      simpa [lookupFailsB] using hf
    cases hcache : lookupOverride r.override s with
    | some c => exact absurd (hwf s c hcache) hmem
    | none =>
      rw [getSerializer_spec, hcache]
      simp [hmem, keyErrMsg]
  | none => rfl
  | codec n => rfl

/-- `_get_serializer` never drops a cache entry. -/
theorem getSerializer_preserves (env : Env) (r : Registry) (nm : CodecArg) :
    cachePreserved r (Registry._get_serializer env r nm).1 := by
  cases nm with
  | name s =>
    cases hcache : lookupOverride r.override s with
    | some c =>
      rw [getSerializer_spec, hcache]
      exact cachePreserved_refl r
    | none =>
      rw [getSerializer_spec, hcache]
      by_cases hmem : s ∈ env.aliases
      · simp only [hmem, if_true]
        intro k c h
        have hk : ¬ s = k := by
          intro he
          rw [he] at hcache
          rw [hcache] at h
          exact Option.noConfusion h
        simpa [lookupOverride, hk] using h
      · simp only [hmem, if_false]
        exact cachePreserved_refl r
  | none => exact cachePreserved_refl r
  | codec n => exact cachePreserved_refl r

/-- `_get_serializer` preserves well-formedness of the cache. -/
theorem getSerializer_wf (env : Env) (r : Registry) (nm : CodecArg)
    (hwf : Registry.wf env r) : Registry.wf env (Registry._get_serializer env r nm).1 := by
  cases nm with
  | name s =>
    cases hcache : lookupOverride r.override s with
    | some c =>
      rw [getSerializer_spec, hcache]
      exact hwf
    | none =>
      rw [getSerializer_spec, hcache]
      by_cases hmem : s ∈ env.aliases
      · simp only [hmem, if_true]
        intro k c h
        by_cases hk : s = k
        · rw [← hk]
          exact hmem
        · rw [show lookupOverride ((s, (⟨s, r.resolverCalls⟩ : AsyncSerializer)) :: r.override) k
              = lookupOverride r.override k by simp [lookupOverride, hk]] at h
          exact hwf k c h
      · simp only [hmem, if_false]
        exact hwf
  | none => exact hwf
  | codec n => exact hwf

/-- The state returned by `_loads` is the state after client resolution. -/
theorem _loads_fst (env : Env) (r : Registry) (s : CodecArg) (d : String) :
    (Registry._loads env r s d).1 = (Registry._get_serializer env r s).1 := by
  rcases h : Registry._get_serializer env r s with ⟨r', res⟩
  cases res with
  | ok c => simp [Registry._loads, h]
  | error e =>
    rcases e with ⟨kind, msg⟩
    cases kind <;> simp [Registry._loads, h]

/-- The state returned by `_loads_model` is the state of its inner
`_loads` call. -/
theorem _loads_model_fst (env : Env) (r : Registry) (tid : String)
    (ds : CodecArg) (d : String) :
    (Registry._loads_model env r tid ds d).1 =
      (Registry._loads env r ((env.typeSerializer tid).orElse ds) d).1 := by
  rcases h : Registry._loads env r ((env.typeSerializer tid).orElse ds) d with ⟨r', res⟩
  cases res with
  | ok v =>
    cases hn : env.maybeNamespace v <;> simp [Registry._loads_model, h, hn]
  | error e => simp [Registry._loads_model, h]

/-- `_loads` never drops a cache entry. -/
theorem _loads_preserves (env : Env) (r : Registry) (s : CodecArg) (d : String) :
    cachePreserved r (Registry._loads env r s d).1 := by
  rw [_loads_fst]
  exact getSerializer_preserves env r s

/-- `_loads_model` never drops a cache entry. -/
theorem _loads_model_preserves (env : Env) (r : Registry) (tid : String)
    (ds : CodecArg) (d : String) :
    cachePreserved r (Registry._loads_model env r tid ds d).1 := by
  rw [_loads_model_fst]
  exact _loads_preserves env r _ d

/-- The decode body of `loads_key` never drops a cache entry. -/
theorem loads_key_body_preserves (env : Env) (r : Registry) (typ : ModelArg)
    (key : String) : cachePreserved r (Registry.loads_key_body env r typ key).1 := by
  cases typ with
  | mstr s =>
    rcases h : Registry._loads env r r.key_serializer key with ⟨r', res⟩
    have hp : cachePreserved r r' := by
      have hx := _loads_preserves env r r.key_serializer key
      rw [h] at hx
      exact hx
    cases res <;> simpa [Registry.loads_key_body, h] using hp
  | mcodec n =>
    rcases h : Registry._loads env r r.key_serializer key with ⟨r', res⟩
    have hp : cachePreserved r r' := by
      have hx := _loads_preserves env r r.key_serializer key
      rw [h] at hx
      exact hx
    cases res <;> simpa [Registry.loads_key_body, h] using hp
  | mmodel tid => exact _loads_model_preserves env r tid r.key_serializer key

/-- The decode body of `loads_value` never drops a cache entry. -/
theorem loads_value_body_preserves (env : Env) (r : Registry) (typ : Option ModelArg)
    (value : String) : cachePreserved r (Registry.loads_value_body env r typ value).1 := by
  have hgen : ∀ h : Registry × Except Exc Val,
      h = Registry._loads env r r.value_serializer value →
      cachePreserved r (match h with
        | (r', .ok d) => (r', maybe_reconstruct env d)
        | (r', .error e) => (r', Except.error e)).1 := by
    intro h he
    rcases h with ⟨r', res⟩
    have hp : cachePreserved r r' := by
      have hx := _loads_preserves env r r.value_serializer value
      rw [← he] at hx
      exact hx
    cases res <;> simpa using hp
  cases typ with
  | none => exact hgen _ rfl
  | some m =>
    cases m with
    | mstr s => exact hgen _ rfl
    | mcodec n => exact hgen _ rfl
    | mmodel tid => exact _loads_model_preserves env r tid r.value_serializer value

/-- `loads_key` never drops a cache entry. -/
theorem loads_key_preserves (env : Env) (r : Registry) (typ : Option ModelArg)
    (key : Option String) : cachePreserved r (Registry.loads_key env r typ key).1 := by
  cases key with
  | none => exact cachePreserved_refl r
  | some b =>
    cases typ with
    | none => exact cachePreserved_refl r
    | some t =>
      rcases h : Registry.loads_key_body env r t b with ⟨r', res⟩
      have hp : cachePreserved r r' := by
        have hx := loads_key_body_preserves env r t b
        rw [h] at hx
        exact hx
      cases res <;> simpa [Registry.loads_key, h] using hp

/-- `loads_value` never drops a cache entry. -/
theorem loads_value_preserves (env : Env) (r : Registry) (typ : Option ModelArg)
    (value : Option String) : cachePreserved r (Registry.loads_value env r typ value).1 := by
  cases value with
  | none => exact cachePreserved_refl r
  | some b =>
    rcases h : Registry.loads_value_body env r typ b with ⟨r', res⟩
    have hp : cachePreserved r r' := by
      have hx := loads_value_body_preserves env r typ b
      rw [h] at hx
      exact hx
    cases res <;> simpa [Registry.loads_value, h] using hp

/-- The shared dump tail never drops a cache entry. -/
theorem dumps_key_go_preserves (env : Env) (r : Registry) (topic : String) (key : Val)
    (m : Bool) (s : CodecArg) :
    cachePreserved r (Registry.dumps_key_go env r topic key m s).1 := by
  by_cases ht : s.isTruthy = true
  · rcases h : Registry._get_serializer env r s with ⟨r', res⟩
    have hp : cachePreserved r r' := by
      have hx := getSerializer_preserves env r s
      rw [h] at hx
      exact hx
    cases res with
    | ok c => simpa [Registry.dumps_key_go, ht, h] using hp
    | error e =>
      rcases e with ⟨kind, msg⟩
      cases kind <;> cases m <;> simpa [Registry.dumps_key_go, ht, h] using hp
  · cases key <;> simpa [Registry.dumps_key_go, ht] using cachePreserved_refl r

/-- The shared dump tail of `dumps_value` never drops a cache entry. -/
theorem dumps_value_go_preserves (env : Env) (r : Registry) (topic : String) (value : Val)
    (m : Bool) (s : CodecArg) :
    cachePreserved r (Registry.dumps_value_go env r topic value m s).1 := by
  by_cases ht : s.isTruthy = true
  · rcases h : Registry._get_serializer env r s with ⟨r', res⟩
    have hp : cachePreserved r r' := by
      have hx := getSerializer_preserves env r s
      rw [h] at hx
      exact hx
    cases res with
    | ok c => simpa [Registry.dumps_value_go, ht, h] using hp
    | error e =>
      rcases e with ⟨kind, msg⟩
      cases kind <;> cases m <;> simpa [Registry.dumps_value_go, ht, h] using hp
  · simpa [Registry.dumps_value_go, ht] using cachePreserved_refl r

/-- `dumps_key` never drops a cache entry. -/
theorem dumps_key_preserves (env : Env) (r : Registry) (topic : String) (key : Val)
    (s : CodecArg) : cachePreserved r (Registry.dumps_key env r topic key s).1 := by
  cases key <;> exact dumps_key_go_preserves env r topic _ _ _

/-- `dumps_value` never drops a cache entry. -/
theorem dumps_value_preserves (env : Env) (r : Registry) (topic : String) (value : Val)
    (s : CodecArg) : cachePreserved r (Registry.dumps_value env r topic value s).1 := by
  cases value <;> exact dumps_value_go_preserves env r topic _ _ _

/-- For a non-model value, `dumps_value` keeps the caller-supplied
serializer argument and continues with `is_model = False`. -/
theorem dumps_value_nonmodel (env : Env) (r : Registry) (topic : String) (v : Val)
    (s : CodecArg) (hm : isModelVal v = false) :
    Registry.dumps_value env r topic v s =
      Registry.dumps_value_go env r topic v false s := by
  cases v <;> first | rfl | simp [isModelVal] at hm

/-- For a model value, `dumps_value` rebinds the serializer to the model's
own `_options.serializer or self.value_serializer`. -/
theorem dumps_value_model (env : Env) (r : Registry) (topic : String) (tid : String)
    (ser : CodecArg) (data : Val) (s : CodecArg) :
    Registry.dumps_value env r topic (.vmodel tid ser data) s =
      Registry.dumps_value_go env r topic (.vmodel tid ser data) true
        (ser.orElse r.value_serializer) := rfl

/-- For a non-model key, `dumps_key` uses the registry key serializer with
`is_model = False` (the caller's serializer argument never matters). -/
theorem dumps_key_nonmodel (env : Env) (r : Registry) (topic : String) (v : Val)
    (s : CodecArg) (hm : isModelVal v = false) :
    Registry.dumps_key env r topic v s =
      Registry.dumps_key_go env r topic v false r.key_serializer := by
  cases v <;> first | rfl | simp [isModelVal] at hm

/-- When client resolution fails its `KeyError` is caught: the value dump
tail falls back to the model self-dump (model) or plain codec (non-model),
leaving the registry state untouched. -/
theorem dumps_value_go_fallback (env : Env) (r : Registry) (topic : String) (v : Val)
    (m : Bool) (nm : CodecArg) (hwf : Registry.wf env r) (hf : lookupFailsB env nm = true)
    (ht : nm.isTruthy = true) :
    Registry.dumps_value_go env r topic v m nm =
      (r, (if m then env.modelDumps v nm else env.codecDumps nm v).map .vbytes) := by
  have h1 := getSerializer_fails env r nm hwf hf
  cases m <;> simp [Registry.dumps_value_go, ht, h1]

/-- Same fallback shape for the key dump tail. -/
theorem dumps_key_go_fallback (env : Env) (r : Registry) (topic : String) (v : Val)
    (m : Bool) (nm : CodecArg) (hwf : Registry.wf env r) (hf : lookupFailsB env nm = true)
    (ht : nm.isTruthy = true) :
    Registry.dumps_key_go env r topic v m nm =
      (r, (if m then env.modelDumps v nm else env.codecDumps nm v).map .vbytes) := by
  have h1 := getSerializer_fails env r nm hwf hf
  cases m <;> simp [Registry.dumps_key_go, ht, h1]

/-- When the codec name is cached, the value dump tail awaits the client's
`dumps_value` on the cached client. -/
theorem dumps_value_go_client (env : Env) (r : Registry) (topic : String) (v : Val)
    (m : Bool) (s : String) (c : AsyncSerializer)
    (hc : lookupOverride r.override s = Option.some c)
    (ht : (CodecArg.name s).isTruthy = true) :
    Registry.dumps_value_go env r topic v m (.name s) =
      (r, (env.clientDumpsValue c topic v).map .vbytes) := by
  have h1 : Registry._get_serializer env r (.name s) = (r, .ok c) := by
    rw [getSerializer_spec, hc]
  simp [Registry.dumps_value_go, ht, h1]

/-- Claim C1, counterexample: with the registry default value serializer
`"json"` and no external alias registered for `"json"`, calling
`dumps_value("t", the dict with field a mapped to 1)` with no explicit
serializer does NOT return the UTF-8 JSON bytes: the registry default
value serializer is never consulted for a non-model value, so the dict is
returned unchanged. -/
theorem C1_counterexample :
    Registry.dumps_value demoEnv r0 "t" dictA1 .none ≠ (r0, .ok (.vbytes jsonA1)) := by
  intro h
  have h2 : Except.ok dictA1 = Except.ok (Val.vbytes jsonA1) := congrArg Prod.snd h
  have h3 : dictA1 = Val.vbytes jsonA1 := by injection h2
  exact absurd h3 (by decide)

/-- Claim C1 (amended): for a non-model value `dumps_value` uses only the
caller-supplied serializer argument and never the registry default; with
no serializer argument the value is returned unchanged and the registry
state untouched.  With the serializer passed explicitly as `"json"` (no
external alias for `"json"`), `dumps_value` of the dict produces the
UTF-8 JSON bytes of the spec scenario, and the registry default is applied
on the decode side: `loads_value(None, those bytes)` returns the dict. -/
theorem C1_theorem :
    (∀ (env : Env) (r : Registry) (topic : String) (v : Val),
      isModelVal v = false →
      Registry.dumps_value env r topic v .none = (r, .ok v)) ∧
    Registry.dumps_value demoEnv r0 "t" dictA1 (.name "json") = (r0, .ok (.vbytes jsonA1)) ∧
    Registry.loads_value demoEnv r0 Option.none (Option.some jsonA1) = (r0, .ok dictA1) := by
  refine ⟨?_, rfl, rfl⟩
  intro env r topic v hm
  cases v <;> first | rfl | simp [isModelVal] at hm

/-- Witness for C1 at the spec scenario's input. -/
theorem C1_witness :
    Registry.dumps_value demoEnv r0 "t" dictA1 .none = (r0, .ok dictA1) :=
  C1_theorem.1 demoEnv r0 "t" dictA1 rfl

/-- Claim C2: every exception escaping the decode body of `loads_key` /
`loads_value` reaches the caller as a `KeyDecodeError` / `ValueDecodeError`
carrying exactly the original exception's message, and those are the only
exception classes the decode entry points can raise: the original class is
not preserved and the chain is suppressed. -/
theorem C2_theorem :
    (∀ (env : Env) (r : Registry) (t : ModelArg) (b : String) (r' : Registry) (e : Exc),
      Registry.loads_key_body env r t b = (r', .error e) →
      Registry.loads_key env r (Option.some t) (Option.some b) =
        (r', .error ⟨.keyDecodeError, e.msg⟩)) ∧
    (∀ (env : Env) (r : Registry) (t : Option ModelArg) (b : String) (r' : Registry) (e : Exc),
      Registry.loads_value_body env r t b = (r', .error e) →
      Registry.loads_value env r t (Option.some b) =
        (r', .error ⟨.valueDecodeError, e.msg⟩)) ∧
    (∀ (env : Env) (r : Registry) (t : ModelArg) (b : String) (r' : Registry) (e : Exc),
      Registry.loads_key env r (Option.some t) (Option.some b) = (r', .error e) →
      e.kind = .keyDecodeError) ∧
    (∀ (env : Env) (r : Registry) (t : Option ModelArg) (b : String) (r' : Registry) (e : Exc),
      Registry.loads_value env r t (Option.some b) = (r', .error e) →
      e.kind = .valueDecodeError) := by
  refine ⟨?_, ?_, ?_, ?_⟩
  · intro env r t b r' e h
    simp [Registry.loads_key, h]
  · intro env r t b r' e h
    simp [Registry.loads_value, h]
  · intro env r t b r' e h
    rcases hb : Registry.loads_key_body env r t b with ⟨r2, res⟩
    cases res with
    | ok v => simp [Registry.loads_key, hb] at h
    | error e2 =>
      simp [Registry.loads_key, hb] at h
      rw [← h.2]
  · intro env r t b r' e h
    rcases hb : Registry.loads_value_body env r t b with ⟨r2, res⟩
    cases res with
    | ok v => simp [Registry.loads_value, hb] at h
    | error e2 =>
      simp [Registry.loads_value, hb] at h
      rw [← h.2]

/-- Witness for C2: a codec parse failure surfaces as `KeyDecodeError`
with the original message. -/
theorem C2_witness :
    Registry.loads_key demoEnv rJson (Option.some (.mstr "json")) (Option.some "nope") =
      (rJson, .error ⟨.keyDecodeError, "could not parse: nope"⟩) :=
  C2_theorem.1 demoEnv rJson (.mstr "json") "nope" rJson
    ⟨.other "ValueError", "could not parse: nope"⟩ rfl

/-- Claim C3: the `serializer` parameter of `dumps_key` is overwritten by
the registry key serializer before use, so any two caller-supplied
serializer arguments give identical results. -/
theorem C3_theorem :
    ∀ (env : Env) (r : Registry) (topic : String) (key : Val) (s1 s2 : CodecArg),
      Registry.dumps_key env r topic key s1 = Registry.dumps_key env r topic key s2 :=
  fun _ _ _ _ _ _ => rfl

/-- Claim C4: on a cache miss for an aliased name, `_get_serializer`
constructs and caches a client, incrementing the resolver-invocation count
by one; an immediate second resolution of the same name returns the
identity-equal cached instance with no further construction and no state
change; and no registry operation ever removes a cache entry. -/
theorem C4_theorem :
    (∀ (env : Env) (r : Registry) (s : String),
      s ∈ env.aliases → lookupOverride r.override s = Option.none →
      Registry._get_serializer env r (.name s) =
        ({ r with override := (s, ⟨s, r.resolverCalls⟩) :: r.override,
                  resolverCalls := r.resolverCalls + 1 },
         .ok ⟨s, r.resolverCalls⟩) ∧
      Registry._get_serializer env
          { r with override := (s, ⟨s, r.resolverCalls⟩) :: r.override,
                   resolverCalls := r.resolverCalls + 1 } (.name s) =
        ({ r with override := (s, ⟨s, r.resolverCalls⟩) :: r.override,
                  resolverCalls := r.resolverCalls + 1 },
         .ok ⟨s, r.resolverCalls⟩)) ∧
    (∀ (env : Env) (r : Registry) (nm : CodecArg),
      cachePreserved r (Registry._get_serializer env r nm).1) ∧
    (∀ (env : Env) (r : Registry) (nm : CodecArg) (d : String),
      cachePreserved r (Registry._loads env r nm d).1) ∧
    (∀ (env : Env) (r : Registry) (t : Option ModelArg) (k : Option String),
      cachePreserved r (Registry.loads_key env r t k).1) ∧
    (∀ (env : Env) (r : Registry) (t : Option ModelArg) (v : Option String),
      cachePreserved r (Registry.loads_value env r t v).1) ∧
    (∀ (env : Env) (r : Registry) (topic : String) (k : Val) (s : CodecArg),
      cachePreserved r (Registry.dumps_key env r topic k s).1) ∧
    (∀ (env : Env) (r : Registry) (topic : String) (v : Val) (s : CodecArg),
      cachePreserved r (Registry.dumps_value env r topic v s).1) := by
  refine ⟨?_, getSerializer_preserves, _loads_preserves, loads_key_preserves,
    loads_value_preserves, dumps_key_preserves, dumps_value_preserves⟩
  intro env r s hmem hnone
  constructor
  · rw [getSerializer_spec, hnone]
    simp [hmem]
  · rw [getSerializer_spec]
    simp [lookupOverride]

/-- Witness for C4: first resolution of `"avro"` constructs client number
zero and caches it; the second resolution returns the same instance with
the construction count still at one. -/
theorem C4_witness :
    Registry._get_serializer demoEnv r0 (.name "avro") =
      ({ r0 with override := [("avro", ⟨"avro", 0⟩)], resolverCalls := 1 },
       .ok ⟨"avro", 0⟩) ∧
    Registry._get_serializer demoEnv
        { r0 with override := [("avro", ⟨"avro", 0⟩)], resolverCalls := 1 } (.name "avro") =
      ({ r0 with override := [("avro", ⟨"avro", 0⟩)], resolverCalls := 1 },
       .ok ⟨"avro", 0⟩) :=
  C4_theorem.1 demoEnv r0 "avro" (by decide) rfl

/-- Claim C5: under the cache invariant (every cached name is an alias),
`_get_serializer` raises exactly when the identifier is not a string or is
a string not in the alias table; the raised exception is a `KeyError` and
leaves the state untouched; that failure is caught inside the registry:
`_loads`, `dumps_value` and `dumps_key` fall back to the plain codec path
instead of surfacing it; and the invariant is preserved, so it holds for
every reachable state. -/
theorem C5_theorem :
    (∀ (env : Env) (r : Registry) (nm : CodecArg), Registry.wf env r →
      isErr (Registry._get_serializer env r nm).2 = lookupFailsB env nm) ∧
    (∀ (env : Env) (r : Registry) (nm : CodecArg) (r' : Registry) (e : Exc),
      Registry._get_serializer env r nm = (r', .error e) →
      r' = r ∧ e.kind = .keyError) ∧
    (∀ (env : Env) (r : Registry) (nm : CodecArg) (data : String),
      Registry.wf env r → lookupFailsB env nm = true →
      Registry._loads env r nm data = (r, env.codecLoads nm data)) ∧
    (∀ (env : Env) (r : Registry) (topic : String) (v : Val) (nm : CodecArg),
      Registry.wf env r → lookupFailsB env nm = true → nm.isTruthy = true →
      isModelVal v = false →
      Registry.dumps_value env r topic v nm = (r, (env.codecDumps nm v).map .vbytes)) ∧
    (∀ (env : Env) (r : Registry) (topic : String) (v : Val) (s : CodecArg),
      Registry.wf env r → lookupFailsB env r.key_serializer = true →
      r.key_serializer.isTruthy = true → isModelVal v = false →
      Registry.dumps_key env r topic v s =
        (r, (env.codecDumps r.key_serializer v).map .vbytes)) ∧
    (∀ (env : Env) (r : Registry) (nm : CodecArg),
      Registry.wf env r → Registry.wf env (Registry._get_serializer env r nm).1) := by
  refine ⟨?_, ?_, ?_, ?_, ?_, getSerializer_wf⟩
  · intro env r nm hwf
    by_cases hf : lookupFailsB env nm = true
    · rw [getSerializer_fails env r nm hwf hf, hf]
      rfl
    · have hf2 : lookupFailsB env nm = false := by
        cases hx : lookupFailsB env nm
        · rfl
        · exact absurd hx hf
      rw [hf2]
      cases nm with
      | name s =>
        have hmem : s ∈ env.aliases := by
          simpa [lookupFailsB] using hf2
        cases hcache : lookupOverride r.override s with
        | some c =>
          rw [getSerializer_spec, hcache]
          rfl
        | none =>
          rw [getSerializer_spec, hcache]
          simp [hmem, isErr]
      | none => simp [lookupFailsB] at hf2
      | codec n => simp [lookupFailsB] at hf2
  · intro env r nm r' e h
    cases nm with
    | name s =>
      cases hcache : lookupOverride r.override s with
      | some c =>
        rw [getSerializer_spec, hcache] at h
        simp at h
      | none =>
        rw [getSerializer_spec, hcache] at h
        by_cases hmem : s ∈ env.aliases
        · simp [hmem] at h
        · simp [hmem] at h
          exact ⟨h.1.symm, by rw [← h.2]⟩
    | none =>
      have h' : ((r, Except.error ⟨ExcKind.keyError, "not a string"⟩) :
          Registry × Except Exc AsyncSerializer) = (r', .error e) := h
      simp at h'
      exact ⟨h'.1.symm, by rw [← h'.2]⟩
    | codec n =>
      have h' : ((r, Except.error ⟨ExcKind.keyError, "not a string"⟩) :
          Registry × Except Exc AsyncSerializer) = (r', .error e) := h
      simp at h'
      exact ⟨h'.1.symm, by rw [← h'.2]⟩
  · intro env r nm data hwf hf
    unfold Registry._loads
    rw [getSerializer_fails env r nm hwf hf]
  · intro env r topic v nm hwf hf ht hm
    rw [dumps_value_nonmodel env r topic v nm hm,
        dumps_value_go_fallback env r topic v false nm hwf hf ht]
    simp
  · intro env r topic v s hwf hf ht hm
    rw [dumps_key_nonmodel env r topic v s hm,
        dumps_key_go_fallback env r topic v false r.key_serializer hwf hf ht]
    simp

/-- Witness for C5: `"json"` is not an alias of the demo environment, so
`_loads` falls back to the plain JSON codec without surfacing the
`KeyError`. -/
theorem C5_witness :
    Registry._loads demoEnv r0 (.name "json") "\x7b\x7d" =
      (r0, jsonCodecLoads (.name "json") "\x7b\x7d") :=
  C5_theorem.2.2.1 demoEnv r0 (.name "json") "\x7b\x7d" (wf_empty demoEnv r0 rfl) rfl

/-- Claim C6: `loads_key(None, b)` returns the raw bytes unchanged and
`loads_key(t, None)` returns `None`; both short-circuit with the registry
state untouched and a result independent of every external collaborator
(no codec and no client is invoked). -/
theorem C6_theorem :
    ∀ (env env2 : Env) (r : Registry) (b : String) (t : ModelArg),
      Registry.loads_key env r Option.none (Option.some b) = (r, .ok (.vbytes b)) ∧
      Registry.loads_key env r (Option.some t) Option.none = (r, .ok .vnone) ∧
      Registry.loads_key env r Option.none (Option.some b) =
        Registry.loads_key env2 r Option.none (Option.some b) ∧
      Registry.loads_key env r (Option.some t) Option.none =
        Registry.loads_key env2 r (Option.some t) Option.none :=
  fun _ _ _ _ _ => ⟨rfl, rfl, rfl, rfl⟩

/-- Claim C7: `loads_value(t, None)` returns `None` without decoding, and
`loads_value(None, b)` decodes `b` with the registry's default value
serializer (the result of `_loads` on `value_serializer`, offered to the
self-describing reconstruction). -/
theorem C7_theorem :
    (∀ (env : Env) (r : Registry) (t : Option ModelArg),
      Registry.loads_value env r t Option.none = (r, .ok .vnone)) ∧
    (∀ (env : Env) (r : Registry) (b : String) (r' : Registry) (d v : Val),
      Registry._loads env r r.value_serializer b = (r', .ok d) →
      maybe_reconstruct env d = .ok v →
      Registry.loads_value env r Option.none (Option.some b) = (r', .ok v)) := by
  constructor
  · intro env r t
    rfl
  · intro env r b r' d v h1 h2
    simp [Registry.loads_value, Registry.loads_value_body, h1, h2]

/-- Witness for C7 at the spec scenario's decode input. -/
theorem C7_witness :
    Registry.loads_value demoEnv r0 Option.none (Option.some jsonA1) = (r0, .ok dictA1) :=
  C7_theorem.2 demoEnv r0 jsonA1 r0 dictA1 dictA1 rfl rfl

/-- Claim C8: when the decoded payload self-describes a concrete subtype,
`loads_value` on a model target returns the instance constructed from the
namespace lookup (the subtype), and only when no subtype is indicated is
the requested type constructed from the decoded data. -/
theorem C8_theorem :
    (∀ (env : Env) (r : Registry) (tid b : String) (r' : Registry)
        (d : Val) (ns : String) (inst : Val),
      Registry._loads env r ((env.typeSerializer tid).orElse r.value_serializer) b =
        (r', .ok d) →
      env.maybeNamespace d = Option.some ns →
      env.construct ns d = .ok inst →
      Registry.loads_value env r (Option.some (.mmodel tid)) (Option.some b) =
        (r', .ok inst)) ∧
    (∀ (env : Env) (r : Registry) (tid b : String) (r' : Registry)
        (d : Val) (inst : Val),
      Registry._loads env r ((env.typeSerializer tid).orElse r.value_serializer) b =
        (r', .ok d) →
      env.maybeNamespace d = Option.none →
      env.construct tid d = .ok inst →
      Registry.loads_value env r (Option.some (.mmodel tid)) (Option.some b) =
        (r', .ok inst)) := by
  constructor
  · intro env r tid b r' d ns inst h1 h2 h3
    simp [Registry.loads_value, Registry.loads_value_body, Registry._loads_model,
      h1, h2, h3]
  · intro env r tid b r' d inst h1 h2 h3
    simp [Registry.loads_value, Registry.loads_value_body, Registry._loads_model,
      h1, h2, h3]

/-- Witness for C8: requesting type `"Base"` on a payload that
self-describes subtype `"Sub"` yields an instance of `"Sub"`. -/
theorem C8_witness :
    Registry.loads_value demoEnv r0 (Option.some (.mmodel "Base"))
        (Option.some "\x7b\"__faust\": \"Sub\"\x7d") =
      (r0, .ok (.vmodel "Sub" .none (.vdictCons "__faust" (.vstr "Sub") .vdictNil))) :=
  C8_theorem.1 demoEnv r0 "Base" "\x7b\"__faust\": \"Sub\"\x7d" r0
    (.vdictCons "__faust" (.vstr "Sub") .vdictNil) "Sub"
    (.vmodel "Sub" .none (.vdictCons "__faust" (.vstr "Sub") .vdictNil)) rfl rfl rfl

/-- Claim C9: a model value with a non-empty preferred serializer is
dumped with that serializer (on the plain fallback path, the model's own
`dumps` receives it), regardless of the registry default and of the
caller's serializer argument; a model whose preferred serializer is unset
is dumped with the registry's default value serializer. -/
theorem C9_theorem :
    (∀ (env : Env) (r : Registry) (topic tid s : String) (data : Val) (arg : CodecArg),
      Registry.wf env r → lookupFailsB env (.name s) = true → s.isEmpty = false →
      Registry.dumps_value env r topic (.vmodel tid (.name s) data) arg =
        (r, (env.modelDumps (.vmodel tid (.name s) data) (.name s)).map .vbytes)) ∧
    (∀ (env : Env) (r : Registry) (topic tid : String) (data : Val) (arg : CodecArg),
      Registry.wf env r → lookupFailsB env r.value_serializer = true →
      r.value_serializer.isTruthy = true →
      Registry.dumps_value env r topic (.vmodel tid .none data) arg =
        (r, (env.modelDumps (.vmodel tid .none data) r.value_serializer).map .vbytes)) := by
  constructor
  · intro env r topic tid s data arg hwf hf he
    have horel : (CodecArg.name s).orElse r.value_serializer = .name s := by
      simp [CodecArg.orElse, CodecArg.isTruthy, he]
    rw [dumps_value_model, horel,
        dumps_value_go_fallback env r topic _ true (.name s) hwf hf
          (by simp [CodecArg.isTruthy, he])]
    simp
  · intro env r topic tid data arg hwf hf ht
    have horel : (CodecArg.none).orElse r.value_serializer = r.value_serializer := rfl
    rw [dumps_value_model, horel,
        dumps_value_go_fallback env r topic _ true r.value_serializer hwf hf ht]
    simp

/-- Witness for C9: with registry default `"json"`, a model declaring
`"msgpack"` is dumped through `"msgpack"`, not `"json"`. -/
theorem C9_witness :
    Registry.dumps_value demoEnv rJson "t" (.vmodel "M" (.name "msgpack") (.vint 7)) .none =
      (rJson, .ok (.vbytes "model-dumped:msgpack")) :=
  C9_theorem.1 demoEnv rJson "t" "M" "msgpack" (.vint 7) .none
    (wf_empty demoEnv rJson rfl) rfl rfl

/-- Claim C10: on the encode path, failures are never wrapped: an
exception from the plain codec layer (`dumps_value` non-model and
`dumps_key`), from a model's self-serialization, or from an external
client's `dumps_value` reaches the caller as exactly the exception the
collaborator raised. -/
theorem C10_theorem :
    (∀ (env : Env) (r : Registry) (topic : String) (v : Val) (nm : CodecArg) (e : Exc),
      Registry.wf env r → lookupFailsB env nm = true → nm.isTruthy = true →
      isModelVal v = false → env.codecDumps nm v = .error e →
      Registry.dumps_value env r topic v nm = (r, .error e)) ∧
    (∀ (env : Env) (r : Registry) (topic tid : String) (ser : CodecArg) (data : Val)
        (arg : CodecArg) (e : Exc),
      Registry.wf env r → lookupFailsB env (ser.orElse r.value_serializer) = true →
      (ser.orElse r.value_serializer).isTruthy = true →
      env.modelDumps (.vmodel tid ser data) (ser.orElse r.value_serializer) = .error e →
      Registry.dumps_value env r topic (.vmodel tid ser data) arg = (r, .error e)) ∧
    (∀ (env : Env) (r : Registry) (topic : String) (v : Val) (s : String)
        (c : AsyncSerializer) (e : Exc),
      isModelVal v = false → lookupOverride r.override s = Option.some c →
      (CodecArg.name s).isTruthy = true →
      env.clientDumpsValue c topic v = .error e →
      Registry.dumps_value env r topic v (.name s) = (r, .error e)) ∧
    (∀ (env : Env) (r : Registry) (topic : String) (v : Val) (s : CodecArg) (e : Exc),
      Registry.wf env r → lookupFailsB env r.key_serializer = true →
      r.key_serializer.isTruthy = true → isModelVal v = false →
      env.codecDumps r.key_serializer v = .error e →
      Registry.dumps_key env r topic v s = (r, .error e)) := by
  refine ⟨?_, ?_, ?_, ?_⟩
  · intro env r topic v nm e hwf hf ht hm he
    rw [dumps_value_nonmodel env r topic v nm hm,
        dumps_value_go_fallback env r topic v false nm hwf hf ht, he]
    simp [Except.map]
  · intro env r topic tid ser data arg e hwf hf ht he
    rw [dumps_value_model, dumps_value_go_fallback env r topic _ true
        (ser.orElse r.value_serializer) hwf hf ht, he]
    simp [Except.map]
  · intro env r topic v s c e hm hc ht he
    rw [dumps_value_nonmodel env r topic v (.name s) hm,
        dumps_value_go_client env r topic v false s c hc ht, he]
    simp [Except.map]
  · intro env r topic v s e hwf hf ht hm he
    rw [dumps_key_nonmodel env r topic v s hm,
        dumps_key_go_fallback env r topic v false r.key_serializer hwf hf ht, he]
    simp [Except.map]

/-- Witness for C10: a `TypeError` from the JSON codec dump propagates
unmodified out of `dumps_value`. -/
theorem C10_witness :
    Registry.dumps_value demoEnv r0 "t" (.vbytes "x") (.name "json") =
      (r0, .error ⟨.other "TypeError", "not JSON serializable"⟩) :=
  C10_theorem.1 demoEnv r0 "t" (.vbytes "x") (.name "json")
    ⟨.other "TypeError", "not JSON serializable"⟩ (wf_empty demoEnv r0 rfl)
    rfl rfl rfl rfl
